import Mathlib

/-!
Verification development for the Adventurer Wiki Foundry VTT module
(source file: adventurer-wiki/scripts/party-wiki.js).

The JavaScript module is shallowly embedded here: the host-provided
primitives (the world-scoped settings store, the socket broadcast channel,
and the notification toasts) become explicit state and effect lists, and the
module functions become pure Lean functions over that state.  Host services
that the module merely consumes (HTML enrichment, locale timestamp
formatting) are modelled by trivial total functions, noted at each site; no
verified claim depends on their output text.
-/

namespace AdventurerWiki

/-! ### String helpers

The module compares ASCII identifiers and titles with the JS builtins
toLowerCase, trim and includes; these are embedded as executable functions
over the character list of a string. -/

/-- ASCII lower-casing of one character; models String.prototype.toLowerCase
for the character range the module compares. -/
def lowerCh (c : Char) : Char :=
  if 'A' ≤ c ∧ c ≤ 'Z' then Char.ofNat (c.toNat + 32) else c

/-- Models the JS expression s.toLowerCase(). -/
def jsToLower (s : String) : String := String.mk (s.data.map lowerCh)

/-- Whitespace test used by jsTrim. -/
def wsCh (c : Char) : Bool := c = ' ' || c = '\t' || c = '\n' || c = '\r'

/-- Models the JS expression s.trim(): leading and trailing whitespace
removed. -/
def jsTrim (s : String) : String :=
  String.mk (((s.data.dropWhile wsCh).reverse.dropWhile wsCh).reverse)

/-- Does the second list start with the first one (helper for jsIncludes). -/
def chStarts : List Char → List Char → Bool
  | [], _ => true
  | _ :: _, [] => false
  | p :: ps, c :: cs => p = c && chStarts ps cs

/-- Substring occurrence on character lists (helper for jsIncludes). -/
def chContains (pat : List Char) : List Char → Bool
  | [] => chStarts pat []
  | c :: cs => chStarts pat (c :: cs) || chContains pat cs

/-- Models the JS expression s.includes(pat). -/
def jsIncludes (s pat : String) : Bool := chContains pat.data s.data

/-- Collect the maximal run of characters different from stop; returns the
run and the remainder, which is empty or starts with stop.  Used by the two
regex scanners below. -/
def collectUntil (stop : Char) : List Char → List Char × List Char
  | [] => ([], [])
  | c :: cs =>
    if c = stop then ([], c :: cs)
    else
      let p := collectUntil stop cs
      (c :: p.1, p.2)

theorem collectUntil_len (stop : Char) (l : List Char) :
    (collectUntil stop l).2.length ≤ l.length := by
  induction l with
  | nil => simp [collectUntil]
  | cons c cs ih =>
    by_cases h : c = stop
    · simp [collectUntil, h]
    · simpa [collectUntil, h] using Nat.le_succ_of_le ih

/-- Scanner for the global regex replace used for search body text,
content.replace with the pattern < [^>]* > replaced by a single space (a tag
without a closing bracket stays literal, as in the regex).  The fuel
argument bounds the number of scan steps; each step consumes at least one
character, so fuel equal to the list length always suffices, and the
fuel-exhausted fallback is unreachable at that fuel. -/
def stripAux : Nat → List Char → List Char
  | 0, l => l
  | _ + 1, [] => []
  | fuel + 1, c :: rest =>
    if c = '<' then
      match collectUntil '>' rest with
      | (_, '>' :: rest2) => ' ' :: stripAux fuel rest2
      | _ => c :: stripAux fuel rest
    else c :: stripAux fuel rest

/-- The body-text tag stripper used by the search filter. -/
def stripTags (s : String) : String := String.mk (stripAux s.data.length s.data)

/-! ### Data model

The entry, comment, category and user records, as stored in the
world-scoped settings and consumed from the host identity accessor. -/

/-- A comment attached to one entry (source: the comment objects built in
PartyWikiApp._submitComment). -/
structure Comment where
  id : String
  authorName : String
  userId : String
  text : String
  createdAt : Nat
deriving DecidableEq

/-- A wiki entry (source: the entry objects built in
WikiEntryEditor._handleSave).  gmNotes is optional because player-created
entries carry no gmNotes field at all; an absent comments field behaves as
the empty list everywhere in the source (the guard entries idx .comments ??
empty-list), so comments is modelled as a plain list. -/
structure Entry where
  id : String
  title : String
  category : String
  content : String
  hidden : Bool := false
  pendingDelete : Bool := false
  createdAt : Nat := 0
  updatedAt : Nat := 0
  createdBy : String := ""
  updatedBy : String := ""
  gmNotes : Option String := none
  comments : List Comment := []
deriving DecidableEq

/-- A configured category (source: DEFAULT_CATEGORIES and the working set of
WikiCategorySettings). -/
structure Category where
  id : String
  label : String
  icon : String
deriving DecidableEq

/-- A connected host user as exposed by game.users: stable id, display
name, role flag and connectivity flag. -/
structure User where
  id : String
  name : String
  isGM : Bool
  active : Bool
deriving DecidableEq

/-- One soft-lock session: the value type of the activeEditors map. -/
structure Session where
  userName : String
  userId : String
deriving DecidableEq

/-- The socket messages of the module channel (discriminated by the action
field in the source). -/
inductive SocketMsg where
  | requestSave (entries : List Entry)
  | refresh
  | categoriesChanged
  | editingStart (entryId userName userId : String)
  | editingStop (entryId userId : String)
deriving DecidableEq

/-- The persistent world-scoped settings of the module: the two logical keys
wikiEntries and wikiCategories. -/
structure WikiState where
  wikiEntries : List Entry
  wikiCategories : List Category
deriving DecidableEq

/-- The built-in default category set (source: DEFAULT_CATEGORIES). -/
def DEFAULT_CATEGORIES : List Category :=
  [ { id := "lore",      label := "Lore",          icon := "fa-book-open" },
    { id := "locations", label := "Locations",     icon := "fa-map-location-dot" },
    { id := "npcs",      label := "NPCs",          icon := "fa-person" },
    { id := "factions",  label := "Factions",      icon := "fa-shield-halved" },
    { id := "quests",    label := "Quests",        icon := "fa-map-pin" },
    { id := "items",     label := "Items",         icon := "fa-gem" },
    { id := "notes",     label := "Session Notes", icon := "fa-scroll" } ]

/-! ### Entry store accessor -/

/-- getEntries(): returns a deep clone of the stored collection; in the pure
model the clone of a value is the value itself. -/
def getEntries (st : WikiState) : List Entry := st.wikiEntries

/-- getCategories(): the stored list, falling back to DEFAULT_CATEGORIES
when the stored value is empty.  The non-array and throwing cases of the
source are excluded by the typed store. -/
def getCategories (st : WikiState) : List Category :=
  if st.wikiCategories.isEmpty then DEFAULT_CATEGORIES else st.wikiCategories

/-! ### Permission and write gateway -/

/-- The outcome of one saveEntries call: the returned boolean, the resulting
store, the socket messages emitted, and the warning toasts raised. -/
structure SaveResult where
  ok : Bool
  state : WikiState
  emitted : List SocketMsg
  warnings : List String
deriving DecidableEq

/-- The warning toast raised by a blocked save (exact source text). -/
def noGMWarning : String :=
  "Adventurer Wiki: A GM must be connected to save. Your work is still in the editor — please try again once a GM joins."

/-- saveEntries(entries): a GM writes directly and emits one refresh; a
player relays through requestSave when some GM is active; otherwise the save
is blocked with a warning and the store is untouched. -/
def saveEntries (user : User) (users : List User) (entries : List Entry)
    (st : WikiState) : SaveResult :=
  if user.isGM then
    { ok := true
      state := { st with wikiEntries := entries }
      emitted := [SocketMsg.refresh]
      warnings := [] }
  else
    match users.find? (fun u => u.isGM && u.active) with
    | none =>
      { ok := false, state := st, emitted := [], warnings := [noGMWarning] }
    | some _ =>
      { ok := true, state := st
        emitted := [SocketMsg.requestSave entries], warnings := [] }

/-- The GM-side socket handler for requestSave: ignored silently on non-GM
clients, otherwise the relayed collection is written and refresh is
broadcast. -/
def onSocketRequestSave (user : User) (entries : List Entry) (st : WikiState) :
    WikiState × List SocketMsg :=
  if user.isGM then ({ st with wikiEntries := entries }, [SocketMsg.refresh])
  else (st, [])

/-! ### Presence tracker (the activeEditors map) -/

/-- The ephemeral activeEditors JS Map, embedded as an association list from
entry id to session.  Keys are unique for every map reachable through the
operations below. -/
abbrev EditorMap := List (String × Session)

/-- Map.get. -/
def editorsGet (m : EditorMap) (k : String) : Option Session :=
  (m.find? (fun p => p.1 == k)).map (fun p => p.2)

/-- Map.set: replaces the binding in place when the key is present,
otherwise appends it (insertion order semantics of a JS Map). -/
def editorsSet (m : EditorMap) (k : String) (v : Session) : EditorMap :=
  if m.any (fun p => p.1 == k) then
    m.map (fun p => if p.1 == k then (k, v) else p)
  else m ++ [(k, v)]

/-- Map.delete. -/
def editorsDelete (m : EditorMap) (k : String) : EditorMap :=
  m.filter (fun p => p.1 != k)

/-- The editingStart socket case: set the lock unconditionally. -/
def onEditingStart (m : EditorMap) (entryId userName userId : String) : EditorMap :=
  editorsSet m entryId { userName := userName, userId := userId }

/-- The editingStop socket case: clear the lock only when the stop event
carries the userId of the current holder. -/
def onEditingStop (m : EditorMap) (entryId userId : String) : EditorMap :=
  match editorsGet m entryId with
  | some cur => if cur.userId == userId then editorsDelete m entryId else m
  | none => m

/-- The userConnected disconnect hook: purge every lock whose holder is the
departed user (the source iterates the map and deletes the matches, which
is the same final map as this filter). -/
def onUserDisconnected (m : EditorMap) (userId : String) : EditorMap :=
  m.filter (fun p => p.2.userId != userId)

/-! ### Cross-reference link rendering -/

/-- The replacement callback of processEntryLinks: the raw captured title is
trimmed and resolved against the given entry list by case-insensitive exact
title match, then rendered as a resolved anchor carrying the entry id, or as
the broken-link anchor. -/
def renderEntryRef (allEntries : List Entry) (rawTitle : String) : String :=
  let title := jsTrim rawTitle
  match allEntries.find? (fun e => jsToLower e.title == jsToLower title) with
  | some linked =>
    "<a class=\"wiki-entry-link\" data-id=\"" ++ linked.id ++ "\">" ++ title ++ "</a>"
  | none =>
    "<a class=\"wiki-entry-link wiki-entry-link-missing\" title=\"No entry found: "
      ++ title ++ "\">" ++ title ++ "</a>"

/-- Scanner for the global regex of processEntryLinks: two open brackets,
a nonempty run of characters other than a closing bracket, then two closing
brackets, replaced by the rendered anchor; on a failed match the scan
advances one character, as the regex engine does.  The fuel argument bounds
the number of steps; each step consumes at least one character, so fuel
equal to the list length always suffices. -/
def linkAux (es : List Entry) : Nat → List Char → List Char
  | 0, l => l
  | _ + 1, [] => []
  | fuel + 1, c1 :: cs =>
    if c1 = '[' then
      match cs with
      | '[' :: rest =>
        match collectUntil ']' rest with
        | (t :: ts, ']' :: ']' :: rest3) =>
          (renderEntryRef es (String.mk (t :: ts))).data ++ linkAux es fuel rest3
        | _ => c1 :: linkAux es fuel cs
      | _ => c1 :: linkAux es fuel cs
    else c1 :: linkAux es fuel cs

/-- processEntryLinks(html, allEntries); the falsy-html short-circuit of the
source coincides with the empty scan. -/
def processEntryLinks (html : String) (allEntries : List Entry) : String :=
  String.mk (linkAux allEntries html.data.length html.data)

/-! ### View projection (PartyWikiApp._prepareContext) -/

/-- A category annotated with its entry count for the sidebar tabs. -/
structure CategoryWithCount extends Category where
  count : Nat
deriving DecidableEq

/-- A sidebar list item: the spread of the stored entry plus the three
annotations added in the projection. -/
structure EntryWithStatus extends Entry where
  beingEditedBy : Option String
  categoryLabel : Option String
  bodyMatch : Bool
deriving DecidableEq

/-- A display-ready comment: the spread of the stored comment plus the
formatted timestamp and the per-viewer delete permission. -/
structure FormattedComment extends Comment where
  createdAtFormatted : String
  canDelete : Bool
deriving DecidableEq

/-- Host locale timestamp formatting (toLocaleString), abstracted to a plain
decimal rendering; no verified claim depends on the text. -/
def formatTimestamp (t : Nat) : String := toString t

/-- Host TextEditor.enrichHTML, an external collaborator of the module;
modelled as the identity on the stored HTML. -/
def enrichHTML (s : String) : String := s

/-- PartyWikiApp._filterEntries: hidden entries are invisible to non-GMs in
every view; in search mode the query matches the lowered title or the
tag-stripped body across all categories; otherwise only the active category
is listed. -/
def filterEntries (searchQuery : String) (activeCat : Option String)
    (entries : List Entry) (isGM : Bool) : List Entry :=
  let q := jsToLower searchQuery
  entries.filter fun e =>
    if e.hidden && !isGM then false
    else if q != "" then
      let titleHit := jsIncludes (jsToLower e.title) q
      let bodyText := if e.content != "" then jsToLower (stripTags e.content) else ""
      titleHit || jsIncludes bodyText q
    else some e.category == activeCat

/-- PartyWikiApp._formatComments: spread each comment and add the formatted
timestamp and canDelete, which is true for a GM viewer or for the author. -/
def formatComments (comments : List Comment) (isGM : Bool) (currentUserId : String) :
    List FormattedComment :=
  comments.map fun c =>
    { toComment := c
      createdAtFormatted := formatTimestamp c.createdAt
      canDelete := isGM || c.userId == currentUserId }

/-- The mutable per-window fields of PartyWikiApp read and written by
_prepareContext. -/
structure AppUIState where
  activeCat : Option String
  selectedEntry : Option String
  searchQuery : String
deriving DecidableEq

/-- The template context assembled by _prepareContext. -/
structure WikiContext where
  categories : List CategoryWithCount
  activeCat : Option String
  entries : List EntryWithStatus
  current : Option Entry
  currentEditor : Option String
  enrichedContent : Option String
  gmNotes : Option String
  formattedComments : List FormattedComment
  hasComments : Bool
  isGM : Bool
  gmOnline : Bool
  searchQuery : String
  isSearching : Bool
  noEntries : Bool
  pendingDeletions : Nat
  updatedAtFormatted : Option String
deriving DecidableEq

/-- The result of one _prepareContext run: the context plus the two window
fields it may have mutated. -/
structure PrepareOutcome where
  ctx : WikiContext
  activeCat : Option String
  selectedEntry : Option String
deriving DecidableEq

/-- The active-category validation at the top of _prepareContext: an active
category id no longer configured degrades to the first configured id. -/
def validateActiveCat (cats : List Category) (activeCat : Option String) :
    Option String :=
  match cats.find? (fun c => some c.id == activeCat) with
  | some _ => activeCat
  | none => cats.head?.map (fun c => c.id)

/-- The selected-entry validation of _prepareContext: the selection is
cleared when the entry no longer exists or is now hidden from this user. -/
def validateSelected (entries : List Entry) (isGM : Bool) :
    Option String → Option String
  | none => none
  | some selId =>
    match entries.find? (fun e => e.id == selId) with
    | none => none
    | some sel => if sel.hidden && !isGM then none else some selId

/-- Resolution of the current entry from the validated selection. -/
def currentOf (entries : List Entry) : Option String → Option Entry
  | none => none
  | some selId => entries.find? (fun e => e.id == selId)

/-- The per-item annotation of the sidebar list (the spread inside the map
over the filtered entries). -/
def entryStatus (q : String) (cats : List Category) (editors : EditorMap)
    (e : Entry) : EntryWithStatus :=
  let bodyMatch :=
    if q != "" then
      if jsIncludes (jsToLower e.title) q then false
      else jsIncludes (if e.content != "" then jsToLower (stripTags e.content) else "") q
    else false
  { toEntry := e
    beingEditedBy := (editorsGet editors e.id).map (fun s => s.userName)
    categoryLabel :=
      if q != "" then
        some (((cats.find? (fun c => c.id == e.category)).map (fun c => c.label)).getD e.category)
      else none
    bodyMatch := bodyMatch }

/-- PartyWikiApp._prepareContext (pure core).  The parameters supply the
store, the acting user, the connected user list, the presence map and the
window fields; the host enrichment is the identity model above. -/
def prepareContext (st : WikiState) (user : User) (users : List User)
    (editors : EditorMap) (ui : AppUIState) : PrepareOutcome :=
  let entries := getEntries st
  let isGM := user.isGM
  let q := jsToLower ui.searchQuery
  let cats := getCategories st
  let activeCat := validateActiveCat cats ui.activeCat
  let filtered := filterEntries ui.searchQuery activeCat entries isGM
  let selected := validateSelected entries isGM ui.selectedEntry
  let current := currentOf entries selected
  let enrichedContent :=
    match current with
    | some cur => if cur.content != "" then some (enrichHTML cur.content) else none
    | none => none
  let enrichedContentLinked := enrichedContent.map (fun h => processEntryLinks h entries)
  let entriesWithStatus := filtered.map (entryStatus q cats editors)
  let categoriesWithCount := cats.map fun cat =>
    { toCategory := cat
      count := (entries.filter (fun e => e.category == cat.id)).length }
  let currentEditor := current.bind fun cur =>
    (editorsGet editors cur.id).map (fun s => s.userName)
  let updatedAtFormatted := current.bind fun cur =>
    if cur.updatedAt != 0 then some (formatTimestamp cur.updatedAt) else none
  let gmNotes := if isGM then current.bind (fun cur => cur.gmNotes) else none
  let formattedComments :=
    formatComments ((current.map (fun cur => cur.comments)).getD []) isGM user.id
  let pendingDeletions := (entries.filter (fun e => e.pendingDelete)).length
  let gmOnline := user.isGM || users.any (fun u => u.isGM && u.active)
  { ctx :=
      { categories := categoriesWithCount
        activeCat := activeCat
        entries := entriesWithStatus
        current := current
        currentEditor := currentEditor
        enrichedContent := enrichedContentLinked
        gmNotes := gmNotes
        formattedComments := formattedComments
        hasComments := decide (formattedComments.length > 0)
        isGM := isGM
        gmOnline := gmOnline
        searchQuery := ui.searchQuery
        isSearching := ui.searchQuery != ""
        noEntries := filtered.length == 0
        pendingDeletions := pendingDeletions
        updatedAtFormatted := updatedAtFormatted }
    activeCat := activeCat
    selectedEntry := selected }

/-! ### Entry mutators (click handlers and the editor save path) -/

/-- The effects of one UI mutation handler: whether a save was initiated,
and the resulting store, socket messages and warnings. -/
structure HandlerResult where
  saveAttempted : Bool
  state : WikiState
  emitted : List SocketMsg
  warnings : List String
deriving DecidableEq

/-- An early return from a handler: nothing happens. -/
def noAction (st : WikiState) : HandlerResult :=
  { saveAttempted := false, state := st, emitted := [], warnings := [] }

/-- The JS statement assigning through a found index, entries at idx becomes
f of entries at idx; the out-of-range case is unreachable because the source
checks the findIndex result first. -/
def updateAt (l : List Entry) (i : Nat) (f : Entry → Entry) : List Entry :=
  match l[i]? with
  | some e => l.set i (f e)
  | none => l

/-- PartyWikiApp._onClickToggleHidden: guarded on a selection and on the GM
role, then the hidden flag of the selected entry is flipped and saved. -/
def onClickToggleHidden (user : User) (users : List User)
    (selected : Option String) (st : WikiState) : HandlerResult :=
  match selected with
  | none => noAction st
  | some selId =>
    if !user.isGM then noAction st
    else
      let entries := getEntries st
      match entries.findIdx? (fun e => e.id == selId) with
      | none => noAction st
      | some idx =>
        let entries2 := updateAt entries idx (fun e => { e with hidden := !e.hidden })
        let r := saveEntries user users entries2 st
        { saveAttempted := true, state := r.state
          emitted := r.emitted, warnings := r.warnings }

/-- PartyWikiApp._onClickGmDelete: guarded on a selection and on the confirm
dialog, then the selected entry is filtered out, the selection cleared and
the collection saved.  Note: the source has no GM-role guard here.  The
first component is the new selectedEntry field. -/
def onClickGmDelete (user : User) (users : List User)
    (selected : Option String) (confirmOk : Bool) (st : WikiState) :
    Option String × HandlerResult :=
  match selected with
  | none => (selected, noAction st)
  | some selId =>
    if !confirmOk then (selected, noAction st)
    else
      let entries := (getEntries st).filter (fun en => en.id != selId)
      let r := saveEntries user users entries st
      (none, { saveAttempted := true, state := r.state
               emitted := r.emitted, warnings := r.warnings })

/-- PartyWikiApp._deleteComment: the comment with the given id is filtered
out of the selected entry and the collection saved.  Note: the source checks
neither the role nor the comment author here. -/
def deleteComment (user : User) (users : List User) (selected : Option String)
    (commentId : String) (st : WikiState) : HandlerResult :=
  match selected with
  | none => noAction st
  | some selId =>
    let entries := getEntries st
    match entries.findIdx? (fun e => e.id == selId) with
    | none => noAction st
    | some idx =>
      let entries2 := updateAt entries idx
        (fun e => { e with comments := e.comments.filter (fun c => c.id != commentId) })
      let r := saveEntries user users entries2 st
      { saveAttempted := true, state := r.state
        emitted := r.emitted, warnings := r.warnings }

/-- The collection built by WikiEntryEditor._handleSave before the save
call.  editorEntry models the _entry window field: some for an existing
entry (whose generated id is truthy), none for the fresh-entry editor
(where the partial seed object has no id and no gmNotes, so the fallbacks
behave as for none).  gmNotesInput and hiddenInput model the two GM-only DOM
inputs when present; title arrives already trimmed. -/
def buildSavedEntries (user : User) (editorEntry : Option Entry)
    (title category content : String) (gmNotesInput : Option String)
    (hiddenInput : Option Bool) (now : Nat) (newId : String)
    (entries : List Entry) : List Entry :=
  let gmNotesVal := gmNotesInput.getD (((editorEntry.bind (fun en => en.gmNotes))).getD "")
  let hiddenVal := hiddenInput.getD false
  match editorEntry with
  | some en =>
    match entries.findIdx? (fun e => e.id == en.id) with
    | some idx =>
      updateAt entries idx fun old =>
        { old with
          title := title, category := category, content := content
          updatedAt := now, updatedBy := user.name
          pendingDelete := false
          comments := old.comments
          gmNotes := if user.isGM then some gmNotesVal else old.gmNotes
          hidden := if user.isGM then hiddenVal else old.hidden }
    | none => entries
  | none =>
    entries ++
      [{ id := newId, title := title, category := category, content := content
         createdAt := now, updatedAt := now
         createdBy := user.name, updatedBy := user.name
         pendingDelete := false
         hidden := if user.isGM then hiddenVal else false
         comments := []
         gmNotes := if user.isGM then some gmNotesVal else none }]

/-- The outcome of WikiEntryEditor._handleSave: whether the save call
reported success, whether the editor window was closed (the editor stays
open on a blocked save so no work is lost), and the effects. -/
structure HandleSaveResult where
  saved : Bool
  closedEditor : Bool
  state : WikiState
  emitted : List SocketMsg
  warnings : List String
deriving DecidableEq

/-- The warning toast for a missing title (exact source text). -/
def warnTitleMsg : String := "Please enter a title for the entry."

/-- WikiEntryEditor._handleSave: trim the title, reject an empty one before
any write, build the new collection and hand it to saveEntries; the editor
closes only when the save call succeeded. -/
def handleSave (user : User) (users : List User) (editorEntry : Option Entry)
    (rawTitle category content : String) (gmNotesInput : Option String)
    (hiddenInput : Option Bool) (now : Nat) (newId : String) (st : WikiState) :
    HandleSaveResult :=
  let title := jsTrim rawTitle
  if title == "" then
    { saved := false, closedEditor := false, state := st
      emitted := [], warnings := [warnTitleMsg] }
  else
    let entries2 := buildSavedEntries user editorEntry title category content
      gmNotesInput hiddenInput now newId (getEntries st)
    let r := saveEntries user users entries2 st
    { saved := r.ok, closedEditor := r.ok, state := r.state
      emitted := r.emitted, warnings := r.warnings }

/-! ### Category settings -/

/-- The warning toast for an empty working set (exact source text). -/
def warnKeepOneMsg : String := "Adventurer Wiki: You must keep at least one category."

/-- The warning toast for a nameless category (exact source text). -/
def warnCatNameMsg : String := "Adventurer Wiki: All categories must have a name."

/-- WikiCategorySettings._save, after _syncFromDOM has produced the working
set: an empty set or any category whose trimmed label is empty is rejected
with a warning before any write; otherwise the set is written and
categoriesChanged broadcast.  Returns the store, the socket messages and the
warnings (the info toast and the window close are UI effects). -/
def categorySettingsSave (working : List Category) (st : WikiState) :
    WikiState × List SocketMsg × List String :=
  if working.length == 0 then (st, [], [warnKeepOneMsg])
  else if working.any (fun cat => jsTrim cat.label == "") then
    (st, [], [warnCatNameMsg])
  else
    ({ st with wikiCategories := working }, [SocketMsg.categoriesChanged], [])

/-! ### Helper lemmas on the presence map -/

theorem find?_map_set (m : EditorMap) (k : String) (v : Session)
    (h : m.any (fun p => p.1 == k) = true) :
    (m.map (fun p => if p.1 == k then (k, v) else p)).find? (fun p => p.1 == k) =
      some (k, v) := by
  induction m with
  | nil => simp at h
  | cons a t ih =>
    simp only [List.any_cons, Bool.or_eq_true] at h
    simp only [List.map_cons]
    by_cases hk : (a.1 == k) = true
    · rw [if_pos hk]
      exact List.find?_cons_of_pos _ (by simp)
    · have h2 : t.any (fun p => p.1 == k) = true := by
        rcases h with h | h
        · exact absurd h hk
        · exact h
      have hk2 : (a.1 == k) = false := by simpa using hk
      rw [if_neg hk]
      simp only [List.find?, hk2]
      exact ih h2

theorem find?_append_new (m : EditorMap) (k : String) (v : Session)
    (h : m.any (fun p => p.1 == k) = false) :
    (m ++ [(k, v)]).find? (fun p => p.1 == k) = some (k, v) := by
  induction m with
  | nil => simp
  | cons a t ih =>
    simp only [List.any_cons, Bool.or_eq_false_iff] at h
    simp [List.find?_cons_of_neg, h.1, ih h.2]

theorem editorsGet_set_self (m : EditorMap) (k : String) (v : Session) :
    editorsGet (editorsSet m k v) k = some v := by
  unfold editorsGet editorsSet
  by_cases h : (m.any fun p => p.1 == k) = true
  · rw [if_pos h, find?_map_set m k v h]
    rfl
  · rw [Bool.not_eq_true] at h
    rw [if_neg (by simp [h]), find?_append_new m k v h]
    rfl

theorem editorsGet_delete_self (m : EditorMap) (k : String) :
    editorsGet (editorsDelete m k) k = none := by
  unfold editorsGet editorsDelete
  rw [Option.map_eq_none', List.find?_eq_none]
  intro p hp
  have := List.of_mem_filter hp
  simp_all

theorem editorsGet_none_of_not_key (m : EditorMap) (x : String)
    (hx : x ∉ m.map Prod.fst) : editorsGet m x = none := by
  unfold editorsGet
  rw [Option.map_eq_none', List.find?_eq_none]
  intro p hp
  simp only [beq_iff_eq]
  intro hpx
  exact hx (hpx ▸ List.mem_map_of_mem Prod.fst hp)

/-! ### Claim theorems -/

/-- C1: with role Player and no connected GM, saveEntries returns the
blocked result false, surfaces a user-visible warning, leaves the persisted
entry collection read afterwards unchanged, and emits nothing. -/
theorem C1_blocked_relay (user : User) (users : List User) (E : List Entry)
    (st : WikiState) (hplayer : user.isGM = false)
    (hnogm : ∀ u ∈ users, ¬(u.isGM = true ∧ u.active = true)) :
    (saveEntries user users E st).ok = false ∧
    (saveEntries user users E st).warnings ≠ [] ∧
    getEntries (saveEntries user users E st).state = getEntries st ∧
    (saveEntries user users E st).emitted = [] := by
  have hfind : users.find? (fun u => u.isGM && u.active) = none := by
    rw [List.find?_eq_none]
    intro u hu
    have := hnogm u hu
    cases hg : u.isGM <;> cases ha : u.active <;> simp_all
  simp [saveEntries, hplayer, hfind, getEntries, noGMWarning]

def C1user : User := { id := "u1", name := "Pip", isGM := false, active := true }

def C1st : WikiState := { wikiEntries := [], wikiCategories := [] }

theorem C1_blocked_relay_witness :
    C1user.isGM = false ∧
    (∀ u ∈ [C1user], ¬(u.isGM = true ∧ u.active = true)) ∧
    ((saveEntries C1user [C1user] [] C1st).ok = false ∧
      (saveEntries C1user [C1user] [] C1st).warnings ≠ [] ∧
      getEntries (saveEntries C1user [C1user] [] C1st).state = getEntries C1st ∧
      (saveEntries C1user [C1user] [] C1st).emitted = []) :=
  ⟨rfl, by decide, C1_blocked_relay C1user [C1user] [] C1st rfl (by decide)⟩

/-- C2: with role GM, saveEntries writes the given collection so that a
subsequent getEntries returns exactly it, reports success, and emits the
refresh broadcast exactly once. -/
theorem C2_gm_direct_commit (user : User) (users : List User) (E : List Entry)
    (st : WikiState) (hgm : user.isGM = true) :
    (saveEntries user users E st).ok = true ∧
    getEntries (saveEntries user users E st).state = E ∧
    (saveEntries user users E st).emitted = [SocketMsg.refresh] ∧
    (saveEntries user users E st).emitted.count SocketMsg.refresh = 1 := by
  simp [saveEntries, hgm, getEntries, List.count_cons, List.count_nil]

def C2gm : User := { id := "g1", name := "Avi", isGM := true, active := true }

def C2entry : Entry := { id := "e1", title := "Dragon", category := "npcs", content := "big" }

def C2st : WikiState := { wikiEntries := [], wikiCategories := [] }

/-- C7: after editingStart for entry X by user u1, an editingStop for X
carrying the same userId u1 leaves X unlocked, while an editingStop for X
carrying a different userId u2 leaves X still locked by u1. -/
theorem C7_lock_lifecycle (m : EditorMap) (X n1 u1 u2 : String) :
    editorsGet (onEditingStop (onEditingStart m X n1 u1) X u1) X = none ∧
    (u1 ≠ u2 →
      editorsGet (onEditingStop (onEditingStart m X n1 u1) X u2) X =
        some { userName := n1, userId := u1 }) := by
  have hget : editorsGet (onEditingStart m X n1 u1) X =
      some { userName := n1, userId := u1 } :=
    editorsGet_set_self m X { userName := n1, userId := u1 }
  constructor
  · unfold onEditingStop
    rw [hget]
    simp only [beq_self_eq_true, if_true]
    exact editorsGet_delete_self _ X
  · intro hne
    unfold onEditingStop
    rw [hget]
    simp only [beq_iff_eq, if_neg hne]
    exact hget

theorem C7_lock_lifecycle_witness :
    ("u1" : String) ≠ "u2" ∧
    editorsGet (onEditingStop (onEditingStart [] "X" "Pip" "u1") "X" "u1") "X" = none ∧
    editorsGet (onEditingStop (onEditingStart [] "X" "Pip" "u1") "X" "u2") "X" =
      some { userName := "Pip", userId := "u1" } :=
  ⟨by decide, (C7_lock_lifecycle [] "X" "Pip" "u1" "u2").1,
    (C7_lock_lifecycle [] "X" "Pip" "u1" "u2").2 (by decide)⟩

/-- C8: a disconnect signal for a user purges exactly the locks whose
holder userId is that user: on a presence map with unique keys, the lock
for any entry X afterwards is gone when its holder was the departed user
and unchanged otherwise. -/
theorem C8_disconnect_cleanup (m : EditorMap) (uid x : String)
    (hnd : (m.map Prod.fst).Nodup) :
    editorsGet (onUserDisconnected m uid) x =
      match editorsGet m x with
      | some s => if s.userId == uid then none else some s
      | none => none := by
  induction m with
  | nil => simp [onUserDisconnected, editorsGet]
  | cons a t ih =>
    rw [List.map_cons, List.nodup_cons] at hnd
    obtain ⟨hka, hndt⟩ := hnd
    by_cases hax : (a.1 == x) = true
    case pos =>
      have haxeq : a.1 = x := by simpa using hax
      have hget : editorsGet (a :: t) x = some a.2 := by
        unfold editorsGet
        rw [List.find?_cons_of_pos (p := fun p => p.1 == x) t hax]
        rfl
      rw [hget]
      by_cases hus : (a.2.userId == uid) = true
      case pos =>
        have husEq : a.2.userId = uid := by simpa using hus
        have hdrop : onUserDisconnected (a :: t) uid = onUserDisconnected t uid := by
          unfold onUserDisconnected
          simp [List.filter_cons, husEq]
        rw [hdrop]
        simp only [hus, if_true]
        refine editorsGet_none_of_not_key _ x ?_
        intro hmem
        apply hka
        rw [haxeq]
        unfold onUserDisconnected at hmem
        rcases List.mem_map.mp hmem with ⟨p, hp, hpx⟩
        exact List.mem_map.mpr ⟨p, List.mem_of_mem_filter hp, hpx⟩
      case neg =>
        have hus2 : (a.2.userId == uid) = false := by simpa using hus
        have husNe : a.2.userId ≠ uid := by simpa using hus
        have hkeep : onUserDisconnected (a :: t) uid = a :: onUserDisconnected t uid := by
          unfold onUserDisconnected
          simp [List.filter_cons, husNe]
        rw [hkeep]
        simp only [hus2, Bool.false_eq_true, if_false]
        unfold editorsGet
        rw [List.find?_cons_of_pos (p := fun q : String × Session => q.1 == x)
          (onUserDisconnected t uid) hax]
        rfl
    case neg =>
      have hget : editorsGet (a :: t) x = editorsGet t x := by
        unfold editorsGet
        rw [List.find?_cons_of_neg (p := fun q : String × Session => q.1 == x) t hax]
      rw [hget]
      by_cases hus : (a.2.userId == uid) = true
      case pos =>
        have husEq : a.2.userId = uid := by simpa using hus
        have hdrop : onUserDisconnected (a :: t) uid = onUserDisconnected t uid := by
          unfold onUserDisconnected
          simp [List.filter_cons, husEq]
        rw [hdrop]
        exact ih hndt
      case neg =>
        have husNe : a.2.userId ≠ uid := by simpa using hus
        have hkeep : onUserDisconnected (a :: t) uid = a :: onUserDisconnected t uid := by
          unfold onUserDisconnected
          simp [List.filter_cons, husNe]
        rw [hkeep]
        unfold editorsGet
        rw [List.find?_cons_of_neg (p := fun q : String × Session => q.1 == x)
          (onUserDisconnected t uid) hax]
        exact ih hndt

def C8map : EditorMap :=
  [("X", { userName := "Pip", userId := "u1" }),
   ("Y", { userName := "Pip", userId := "u1" }),
   ("Z", { userName := "Mal", userId := "u2" })]

theorem C8_disconnect_cleanup_witness :
    ((C8map.map Prod.fst).Nodup ∧
      editorsGet (onUserDisconnected C8map "u1") "X" = none) ∧
    editorsGet (onUserDisconnected C8map "u1") "Y" = none ∧
    editorsGet (onUserDisconnected C8map "u1") "Z" =
      some { userName := "Mal", userId := "u2" } := by
  refine ⟨⟨by decide, ?_⟩, ?_, ?_⟩
  · rw [C8_disconnect_cleanup C8map "u1" "X" (by decide)]
    decide
  · rw [C8_disconnect_cleanup C8map "u1" "Y" (by decide)]
    decide
  · rw [C8_disconnect_cleanup C8map "u1" "Z" (by decide)]
    decide

theorem C2_gm_direct_commit_witness :
    C2gm.isGM = true ∧
    ((saveEntries C2gm [C2gm] [C2entry] C2st).ok = true ∧
      getEntries (saveEntries C2gm [C2gm] [C2entry] C2st).state = [C2entry] ∧
      (saveEntries C2gm [C2gm] [C2entry] C2st).emitted = [SocketMsg.refresh] ∧
      (saveEntries C2gm [C2gm] [C2entry] C2st).emitted.count SocketMsg.refresh = 1) :=
  ⟨rfl, C2_gm_direct_commit C2gm [C2gm] [C2entry] C2st rfl⟩

theorem getCategories_ne_nil (st : WikiState) : getCategories st ≠ [] := by
  unfold getCategories
  split
  · simp [DEFAULT_CATEGORIES]
  · next h =>
    intro hc
    rw [hc] at h
    simp at h

/-- C9: saving the category settings with an empty working set, or with any
category whose trimmed label is empty, is rejected before any write: the
store is untouched, nothing is broadcast, a warning is surfaced, and the
category set read afterwards is the same non-empty set as before.  The
remove-the-last-category attempt is the empty working set case. -/
theorem C9_category_invariant (working : List Category) (st : WikiState)
    (hbad : working = [] ∨ ∃ cat ∈ working, jsTrim cat.label = "") :
    (categorySettingsSave working st).1 = st ∧
    (categorySettingsSave working st).2.1 = [] ∧
    (categorySettingsSave working st).2.2 ≠ [] ∧
    getCategories (categorySettingsSave working st).1 = getCategories st ∧
    getCategories (categorySettingsSave working st).1 ≠ [] := by
  have hreject : (categorySettingsSave working st) = (st, [], [warnKeepOneMsg]) ∨
      (categorySettingsSave working st) = (st, [], [warnCatNameMsg]) := by
    rcases hbad with h | ⟨cat, hmem, hlab⟩
    · left
      simp [categorySettingsSave, h]
    · by_cases hlen : working.length = 0
      · left
        simp [categorySettingsSave, hlen]
      · right
        have hany : (working.any fun c => jsTrim c.label == "") = true :=
          List.any_eq_true.mpr ⟨cat, hmem, by simpa using hlab⟩
        simp [categorySettingsSave, hlen, hany]
  rcases hreject with h | h <;>
    simp [h, warnKeepOneMsg, warnCatNameMsg, getCategories_ne_nil st]

def C9st : WikiState := { wikiEntries := [], wikiCategories := DEFAULT_CATEGORIES }

theorem C9_category_invariant_witness :
    (([] : List Category) = [] ∨ ∃ cat ∈ ([] : List Category), jsTrim cat.label = "") ∧
    ((categorySettingsSave [] C9st).1 = C9st ∧
      (categorySettingsSave [] C9st).2.1 = [] ∧
      (categorySettingsSave [] C9st).2.2 ≠ [] ∧
      getCategories (categorySettingsSave [] C9st).1 = getCategories C9st ∧
      getCategories (categorySettingsSave [] C9st).1 ≠ []) :=
  ⟨Or.inl rfl, C9_category_invariant [] C9st (Or.inl rfl)⟩

/-- C10: when a non-GM user saves an existing entry through the editor, the
collection handed to the save call is the old collection with only that
entry replaced, and the replacement rewrites exactly title, category,
content, updatedAt, updatedBy and pendingDelete (the latter to false),
keeping hidden, gmNotes, comments and every other field; handleSave passes
exactly this collection to saveEntries once the trimmed title is
non-empty. -/
theorem C10_player_save_frame (user : User) (en old : Entry)
    (entries : List Entry) (title category content : String)
    (g : Option String) (hb : Option Bool) (now : Nat) (newId : String)
    (i : Nat) (hplayer : user.isGM = false)
    (hidx : entries.findIdx? (fun e => e.id == en.id) = some i)
    (hold : entries[i]? = some old) :
    buildSavedEntries user (some en) title category content g hb now newId entries =
      entries.set i
        { old with
          title := title, category := category, content := content
          updatedAt := now, updatedBy := user.name, pendingDelete := false } := by
  simp only [buildSavedEntries, updateAt, hidx, hold, hplayer, Bool.false_eq_true,
    if_false]

def C10old : Entry :=
  { id := "e1", title := "Old", category := "lore", content := "c0"
    hidden := true, pendingDelete := true, createdAt := 3, updatedAt := 4
    createdBy := "GM", updatedBy := "GM", gmNotes := some "secret"
    comments := [{ id := "c1", authorName := "Pip", userId := "u1", text := "hi", createdAt := 5 }] }

theorem C10_player_save_frame_witness :
    C1user.isGM = false ∧
    ([C10old].findIdx? (fun e => e.id == C10old.id) = some 0) ∧
    ([C10old][0]? = some C10old) ∧
    buildSavedEntries C1user (some C10old) "New" "npcs" "c1" none none 9 "idX" [C10old] =
      [{ C10old with
          title := "New", category := "npcs", content := "c1"
          updatedAt := 9, updatedBy := C1user.name, pendingDelete := false }] :=
  ⟨rfl, by decide, by decide,
    C10_player_save_frame C1user C10old C10old [C10old] "New" "npcs" "c1"
      none none 9 "idX" 0 rfl (by decide) (by decide)⟩

/-! ### Redaction lemmas (claims C3 and C4) -/

theorem hidden_false_of_mem_filterEntries (sq : String) (ac : Option String)
    (entries : List Entry) (e : Entry)
    (h : e ∈ filterEntries sq ac entries false) : e.hidden = false := by
  unfold filterEntries at h
  have hpred := List.of_mem_filter h
  by_cases hh : e.hidden = true
  · simp [hh] at hpred
  · simpa using hh

theorem current_not_hidden (entries : List Entry) (sel : Option String)
    (cur : Entry)
    (h : currentOf entries (validateSelected entries false sel) = some cur) :
    cur.hidden = false := by
  match sel with
  | none => simp [validateSelected, currentOf] at h
  | some selId =>
    cases hfind : entries.find? (fun e => e.id == selId) with
    | none =>
      have hv : validateSelected entries false (some selId) = none := by
        show (match entries.find? (fun e => e.id == selId) with
              | none => none
              | some s => if s.hidden && !false then none else some selId
              : Option String) = none
        rw [hfind]
      rw [hv] at h
      simp [currentOf] at h
    | some s =>
      by_cases hh : s.hidden = true
      · have hv : validateSelected entries false (some selId) = none := by
          show (match entries.find? (fun e => e.id == selId) with
                | none => none
                | some t => if t.hidden && !false then none else some selId
                : Option String) = none
          rw [hfind]
          simp [hh]
        rw [hv] at h
        simp [currentOf] at h
      · have hh2 : s.hidden = false := by simpa using hh
        have hv : validateSelected entries false (some selId) = some selId := by
          show (match entries.find? (fun e => e.id == selId) with
                | none => none
                | some t => if t.hidden && !false then none else some selId
                : Option String) = some selId
          rw [hfind]
          simp [hh2]
        rw [hv] at h
        have hc : currentOf entries (some selId) =
            entries.find? (fun e => e.id == selId) := rfl
        rw [hc, hfind] at h
        cases h
        exact hh2

def C3visible : Entry :=
  { id := "e1", title := "Tavern", category := "lore", content := "[[Secret]]" }

def C3hidden : Entry :=
  { id := "e2", title := "Secret", category := "lore", content := "shh", hidden := true }

def C3st : WikiState := { wikiEntries := [C3visible, C3hidden], wikiCategories := [] }

def C3player : User := { id := "u1", name := "Pip", isGM := false, active := true }

def C3ui : AppUIState :=
  { activeCat := some "lore", selectedEntry := some "e1", searchQuery := "" }

/-- C3 counterexample: a Player-role projection of a store holding a visible
selected entry whose content references the hidden entry titled Secret.  The
claim expects the reference to render as a broken link for the Player; the
projection instead resolves it against the full stored collection and
renders the resolved anchor carrying the hidden entry id, which differs
from the broken-link rendering. -/
theorem C3_hidden_link_counterexample :
    C3player.isGM = false ∧
    C3hidden.hidden = true ∧
    (prepareContext C3st C3player [C3player] [] C3ui).ctx.enrichedContent =
      some "<a class=\"wiki-entry-link\" data-id=\"e2\">Secret</a>" ∧
    (prepareContext C3st C3player [C3player] [] C3ui).ctx.enrichedContent ≠
      some "<a class=\"wiki-entry-link wiki-entry-link-missing\" title=\"No entry found: Secret\">Secret</a>" := by
  refine ⟨rfl, rfl, by decide, by decide⟩

/-- C3 amended: for a Player-role projection, entries with hidden true are
excluded from the sidebar listing and from search results, and are never the
current selection; but cross-reference resolution consults the full stored
collection independent of role, so a double-bracket reference whose trimmed
title matches any stored entry, hidden ones included, renders as a resolved
anchor rather than a broken link. -/
theorem C3_hidden_redaction_amended (st : WikiState) (user : User)
    (users : List User) (editors : EditorMap) (ui : AppUIState)
    (hplayer : user.isGM = false) :
    (∀ ews ∈ (prepareContext st user users editors ui).ctx.entries,
      ews.hidden = false) ∧
    (∀ cur, (prepareContext st user users editors ui).ctx.current = some cur →
      cur.hidden = false) ∧
    (∀ rawTitle : String, ∀ e ∈ getEntries st,
      jsToLower e.title = jsToLower (jsTrim rawTitle) →
      ∃ linked,
        (getEntries st).find?
          (fun x => jsToLower x.title == jsToLower (jsTrim rawTitle)) = some linked ∧
        renderEntryRef (getEntries st) rawTitle =
          "<a class=\"wiki-entry-link\" data-id=\"" ++ linked.id ++ "\">"
            ++ jsTrim rawTitle ++ "</a>") := by
  refine ⟨?_, ?_, ?_⟩
  · intro ews hmem
    have hent : (prepareContext st user users editors ui).ctx.entries =
        (filterEntries ui.searchQuery
            (validateActiveCat (getCategories st) ui.activeCat)
            (getEntries st) user.isGM).map
          (entryStatus (jsToLower ui.searchQuery) (getCategories st) editors) := rfl
    rw [hent, hplayer] at hmem
    rcases List.mem_map.mp hmem with ⟨e, he, rfl⟩
    exact hidden_false_of_mem_filterEntries _ _ _ _ he
  · intro cur hcur
    have hc : (prepareContext st user users editors ui).ctx.current =
        currentOf (getEntries st)
          (validateSelected (getEntries st) user.isGM ui.selectedEntry) := rfl
    rw [hc, hplayer] at hcur
    exact current_not_hidden _ _ _ hcur
  · intro rawTitle e he htitle
    have hp : (fun x => jsToLower x.title == jsToLower (jsTrim rawTitle)) e = true := by
      simpa using htitle
    have hsome : ((getEntries st).find?
        (fun x => jsToLower x.title == jsToLower (jsTrim rawTitle))).isSome :=
      List.find?_isSome.mpr ⟨e, he, hp⟩
    obtain ⟨linked, hlinked⟩ := Option.isSome_iff_exists.mp hsome
    refine ⟨linked, hlinked, ?_⟩
    simp only [renderEntryRef, hlinked]

theorem C3_hidden_redaction_amended_witness :
    C3player.isGM = false ∧
    (∀ ews ∈ (prepareContext C3st C3player [C3player] [] C3ui).ctx.entries,
      ews.hidden = false) ∧
    (∀ cur, (prepareContext C3st C3player [C3player] [] C3ui).ctx.current = some cur →
      cur.hidden = false) ∧
    (∀ rawTitle : String, ∀ e ∈ getEntries C3st,
      jsToLower e.title = jsToLower (jsTrim rawTitle) →
      ∃ linked,
        (getEntries C3st).find?
          (fun x => jsToLower x.title == jsToLower (jsTrim rawTitle)) = some linked ∧
        renderEntryRef (getEntries C3st) rawTitle =
          "<a class=\"wiki-entry-link\" data-id=\"" ++ linked.id ++ "\">"
            ++ jsTrim rawTitle ++ "</a>") :=
  ⟨rfl,
    (C3_hidden_redaction_amended C3st C3player [C3player] [] C3ui rfl).1,
    (C3_hidden_redaction_amended C3st C3player [C3player] [] C3ui rfl).2.1,
    (C3_hidden_redaction_amended C3st C3player [C3player] [] C3ui rfl).2.2⟩

def C4entry : Entry :=
  { id := "e1", title := "Keep", category := "lore", content := "c"
    gmNotes := some "secret plans" }

def C4st : WikiState := { wikiEntries := [C4entry], wikiCategories := [] }

def C4player : User := { id := "u2", name := "Ann", isGM := false, active := true }

def C4ui : AppUIState :=
  { activeCat := some "lore", selectedEntry := some "e1", searchQuery := "" }

/-- C4 counterexample: the Player-role projection of a store whose entry
carries a stored gmNotes value.  The claim says no data structure of the
context contains a gmNotes field for a Player; but the sidebar entry list
item and the current entry object are spreads of the stored entry and
retain the stored gmNotes value.  Only the top-level gmNotes field is
redacted. -/
theorem C4_gmNotes_leak_counterexample :
    C4player.isGM = false ∧
    ((prepareContext C4st C4player [] [] C4ui).ctx.current.bind
      (fun cur => cur.gmNotes)) = some "secret plans" ∧
    ((prepareContext C4st C4player [] [] C4ui).ctx.entries.map
      (fun ews => ews.gmNotes)) = [some "secret plans"] ∧
    (prepareContext C4st C4player [] [] C4ui).ctx.gmNotes = none := by
  refine ⟨rfl, by decide, by decide, by decide⟩

/-- C4 amended: for every store and every stored gmNotes value, the
top-level gmNotes field of a Player-role projection context is none; the
entry objects embedded in the context (the sidebar list items and the
current entry) are spreads of the stored entries and are not stripped of
their stored gmNotes field. -/
theorem C4_gmNotes_top_level_redacted (st : WikiState) (user : User)
    (users : List User) (editors : EditorMap) (ui : AppUIState)
    (hplayer : user.isGM = false) :
    (prepareContext st user users editors ui).ctx.gmNotes = none := by
  have h : (prepareContext st user users editors ui).ctx.gmNotes =
      (if user.isGM then
        (currentOf (getEntries st)
          (validateSelected (getEntries st) user.isGM ui.selectedEntry)).bind
          (fun cur => cur.gmNotes)
      else none) := rfl
  rw [h, hplayer]
  simp

theorem C4_gmNotes_top_level_redacted_witness :
    C4player.isGM = false ∧
    (prepareContext C4st C4player [] [] C4ui).ctx.gmNotes = none :=
  ⟨rfl, C4_gmNotes_top_level_redacted C4st C4player [] [] C4ui rfl⟩

/-! ### Permission checks on the GM-only mutations (claims C5 and C6) -/

def C5entry : Entry := { id := "X", title := "Doomed", category := "lore", content := "c" }

def C5st : WikiState := { wikiEntries := [C5entry], wikiCategories := [] }

def C5player : User := { id := "u2", name := "Mal", isGM := false, active := true }

def C5gm : User := { id := "g1", name := "Avi", isGM := true, active := true }

/-- C5: the hide toggle handler does carry the defensive GM check and
rejects a non-GM with no state change and no save attempt; but the
permanent delete handler carries no role check at all: a non-GM clicking
through the confirm dialog initiates a save relaying the collection without
the entry, and the GM-side relay handler then commits the deletion.  This
contradicts the claimed rejection at the point of attempt for both
mutations, and the module header comment that only the GM can permanently
delete. -/
theorem C5_gm_delete_unguarded :
    C5player.isGM = false ∧
    onClickToggleHidden C5player [C5player, C5gm] (some "X") C5st = noAction C5st ∧
    (onClickGmDelete C5player [C5player, C5gm] (some "X") true C5st).2.saveAttempted
      = true ∧
    (onClickGmDelete C5player [C5player, C5gm] (some "X") true C5st).2.emitted =
      [SocketMsg.requestSave []] ∧
    (onSocketRequestSave C5gm [] C5st).1.wikiEntries = [] := by
  refine ⟨rfl, by decide, by decide, by decide, by decide⟩

def C6comment : Comment :=
  { id := "c1", authorName := "Pip", userId := "u1", text := "hello", createdAt := 5 }

def C6entry : Entry :=
  { id := "X", title := "Board", category := "lore", content := "c"
    comments := [C6comment] }

def C6st : WikiState := { wikiEntries := [C6entry], wikiCategories := [] }

def C6other : User := { id := "u2", name := "Mal", isGM := false, active := true }

def C6gm : User := { id := "g1", name := "Avi", isGM := true, active := true }

/-- C6 counterexample: a comment authored by user u1, deleted through the
handler by the different non-GM user u2 while a GM is connected.  The claim
says the operation does not remove the comment for u2; but the handler
performs no ownership check: it initiates the save, relays the collection
with the comment removed, and the GM-side relay handler commits it. -/
theorem C6_delete_comment_unchecked_counterexample :
    C6other.isGM = false ∧
    C6other.id ≠ C6comment.userId ∧
    (deleteComment C6other [C6other, C6gm] (some "X") "c1" C6st).saveAttempted
      = true ∧
    (deleteComment C6other [C6other, C6gm] (some "X") "c1" C6st).emitted =
      [SocketMsg.requestSave [{ C6entry with comments := [] }]] ∧
    (onSocketRequestSave C6gm [{ C6entry with comments := [] }] C6st).1.wikiEntries =
      [{ C6entry with comments := [] }] := by
  refine ⟨rfl, by decide, by decide, by decide, by decide⟩

/-- C6 amended: the view projection marks a comment deletable (canDelete)
exactly when the viewer is a GM or the author identified by userId, and the
delete control is offered only then; the deletion operation itself performs
no ownership check: any caller whose save goes through removes the comment,
and in particular a GM-invoked deletion commits the collection with every
comment of that id removed from the selected entry. -/
theorem C6_comment_ownership_amended (comments : List Comment) (isGM : Bool)
    (uid : String) (user : User) (users : List User) (st : WikiState)
    (selId cid : String) (i : Nat) (e : Entry) :
    ((formatComments comments isGM uid).map (fun fc => fc.canDelete) =
      comments.map (fun c => isGM || c.userId == uid)) ∧
    (user.isGM = true →
      (getEntries st).findIdx? (fun x => x.id == selId) = some i →
      (getEntries st)[i]? = some e →
      (deleteComment user users (some selId) cid st).saveAttempted = true ∧
      (deleteComment user users (some selId) cid st).state.wikiEntries =
        (getEntries st).set i
          { e with comments := e.comments.filter (fun c => c.id != cid) }) := by
  constructor
  · simp only [formatComments, List.map_map]
    rfl
  · intro hgm hidx hold
    constructor
    · simp only [deleteComment, updateAt, hidx, hold]
    · simp only [deleteComment, updateAt, hidx, hold, saveEntries, hgm, if_true]

theorem C6_comment_ownership_amended_witness :
    C6gm.isGM = true ∧
    ((formatComments [C6comment] false "u1").map (fun fc => fc.canDelete) =
      [C6comment].map (fun c => false || c.userId == "u1")) ∧
    ((deleteComment C6gm [C6gm] (some "X") "c1" C6st).saveAttempted = true ∧
      (deleteComment C6gm [C6gm] (some "X") "c1" C6st).state.wikiEntries =
        (getEntries C6st).set 0
          { C6entry with
            comments := C6entry.comments.filter (fun c => c.id != "c1") }) :=
  ⟨rfl,
    (C6_comment_ownership_amended [C6comment] false "u1" C6gm [C6gm] C6st "X" "c1"
      0 C6entry).1,
    (C6_comment_ownership_amended [C6comment] false "u1" C6gm [C6gm] C6st "X" "c1"
      0 C6entry).2 rfl (by decide) (by decide)⟩

end AdventurerWiki
